import Mathlib

/-!
Shallow embedding of the compass workflow engine core
(`src/compass/substep.py`, `src/compass/model.py`, `src/compass/testcase.py`,
`src/compass/run/serial.py`) together with proofs of the specified properties.

Python integers are modelled as `Int`; Python floor division `//` is
`Int.fdiv`; `numpy.ceil(a / b)` (exact ceiling of the rational quotient) is
`ceil_div` below.  Filesystems are modelled as the list of existing paths.
-/

namespace Compass

/-- A filesystem snapshot: the list of paths that exist. -/
abbrev FS := List String

/-! ## Substep (`src/compass/substep.py`)

A substep's in-process unit of work (`Substep.run`, overridden by
subclasses) is modelled as a function from the filesystem to either an
exception message or the filesystem after the substep's side effects.  The
base class `Substep.run` is `pass`, hence the default `work` is a no-op.
-/

structure Substep where
  name : String
  cpus_per_task : Int := 1
  min_cpus_per_task : Int := 1
  ntasks : Int := 1
  min_tasks : Int := 1
  openmp_threads : Int := 1
  mem : String := "1G"
  args : Option (List String) := none
  work : FS → Except String FS := fun fs => Except.ok fs

/-- `Substep.set_resources` (`substep.py`, lines 97-146): each argument that
is not `None` overwrites the corresponding attribute; arguments left as
`None` leave the attribute unchanged.  The method performs no check of any
kind and cannot fail. -/
def Substep.set_resources (s : Substep)
    (cpus_per_task min_cpus_per_task ntasks min_tasks openmp_threads :
      Option Int)
    (mem : Option String) : Substep :=
  let s := match cpus_per_task with
    | some v => { s with cpus_per_task := v }
    | none => s
  let s := match min_cpus_per_task with
    | some v => { s with min_cpus_per_task := v }
    | none => s
  let s := match ntasks with
    | some v => { s with ntasks := v }
    | none => s
  let s := match min_tasks with
    | some v => { s with min_tasks := v }
    | none => s
  let s := match openmp_threads with
    | some v => { s with openmp_threads := v }
    | none => s
  match mem with
    | some v => { s with mem := v }
    | none => s

/-- Modelled from the spec: `Substep.constrain_resources` (the resource
fitter) is called from `testcase.py` and `run/serial.py` but its definition
is not under `src/`.  Following §4.1 of the spec: "Number of usable tasks is
`floor(available_tasks / fitted_cpus_per_task)` but never exceeds
`request.desired_tasks`; if the resulting task count is below
`request.min_tasks`, fail with `InsufficientTasks`."  The call sites pass a
single capacity argument `available_cores`. -/
def Substep.constrain_resources (s : Substep) (available_cores : Int) :
    Except String Substep :=
  let fitted := min s.ntasks (available_cores.fdiv s.cpus_per_task)
  if fitted < s.min_tasks then Except.error "InsufficientTasks"
  else Except.ok { s with ntasks := fitted }

/-! ## ModelSubstep (`src/compass/model.py`) -/

/-- The resource part of `ModelSubstep.__init__` (`model.py`, lines
158-208): the call to `super().__init__` passes `openmp_threads` for
`cpus_per_task` and for `min_cpus_per_task` as well as for
`openmp_threads`. -/
def modelSubstepInit (name : String) (ntasks min_tasks openmp_threads : Int)
    (mem : String) : Substep :=
  { name := name
    cpus_per_task := openmp_threads
    min_cpus_per_task := openmp_threads
    ntasks := ntasks
    min_tasks := min_tasks
    openmp_threads := openmp_threads
    mem := mem }

/-- `ModelSubstep.set_model_resources` (`model.py`, lines 210-240): forwards
to `set_resources` with `cpus_per_task` and `min_cpus_per_task` both set to
the `openmp_threads` argument. -/
def Substep.set_model_resources (s : Substep)
    (ntasks min_tasks openmp_threads : Option Int) (mem : Option String) :
    Substep :=
  s.set_resources openmp_threads openmp_threads ntasks min_tasks
    openmp_threads mem

/-- The `ModelSubstep` resource invariant:
`cpus_per_task = min_cpus_per_task = openmp_threads`. -/
def modelResourceInvariant (s : Substep) : Prop :=
  s.cpus_per_task = s.min_cpus_per_task ∧
    s.min_cpus_per_task = s.openmp_threads

/-! ## PIO stride computation (`src/compass/model.py`, lines 122-155) -/

/-- `int(numpy.ceil(a / b))`: the exact ceiling of the rational quotient
`a / b`, for `b ≠ 0`.  Expressed through floor division:
`⌈a / b⌉ = -⌊(-a) / b⌋`. -/
def ceil_div (a b : Int) : Int := -((-a).fdiv b)

inductive PioError where
  /-- Python `ZeroDivisionError` (division by a zero divisor). -/
  | zeroDivision : PioError
  /-- The `ValueError` "Not enough nodes for the number of cores". -/
  | notEnoughNodes (cores cores_per_node : Int) : PioError
  deriving DecidableEq

/-- The numeric core of `ModelSetupSubstep.update_namelist_pio`
(`model.py`, lines 122-155): `pio_num_iotasks = int(numpy.ceil(cores /
cores_per_node))`, `pio_stride = cores // pio_num_iotasks`; if
`pio_stride > cores_per_node` a `ValueError` is raised, otherwise the two
derived settings are written into the namelist.  (`cores` is
`self.model_substep.cpus_per_task`; the file-writing part is an external
collaborator and is not modelled.) -/
def update_namelist_pio (cores cores_per_node : Int) :
    Except PioError (Int × Int) :=
  if cores_per_node = 0 then Except.error PioError.zeroDivision
  else
    let pio_num_iotasks := ceil_div cores cores_per_node
    if pio_num_iotasks = 0 then Except.error PioError.zeroDivision
    else
      let pio_stride := cores.fdiv pio_num_iotasks
      if cores_per_node < pio_stride then
        Except.error (PioError.notEnoughNodes cores cores_per_node)
      else Except.ok (pio_num_iotasks, pio_stride)

/-! ## Step

The `Step` class itself is not under `src/` (only its callers are); the
fields below are the attributes those callers read (`testcase.py`,
`run/serial.py`, `model.py`).  `substeps` is the insertion-ordered `dict`
of substeps, `substeps_to_run` the list of substep names executed by
`TestCase._run_step`. -/

structure Step where
  name : String
  cached : Bool := false
  inputs : List String := []
  outputs : List String := []
  substeps : List Substep := []
  substeps_to_run : List String := []
  run_substeps_as_commands : Bool := false

/-- Modelled from the spec: `Step.add_substep` is not under `src/` (it is
called in `model.py`, line 69-70).  Per §3 of the spec a Step's substeps
are "ordered, insertion order = execution order", so adding a substep
appends it to the substep collection and its name to the execution list. -/
def Step.add_substep (step : Step) (substep : Substep) : Step :=
  { step with
    substeps := step.substeps ++ [substep]
    substeps_to_run := step.substeps_to_run ++ [substep.name] }

inductive StepError where
  /-- The `OSError` "input file(s) missing in step ..." naming the step and
  the missing paths (`testcase.py`, lines 274-278). -/
  | missingInputs (step : String) (paths : List String) : StepError
  /-- The `OSError` "output file(s) missing in step ..." naming the step and
  the missing paths (`testcase.py`, lines 321-325). -/
  | missingOutputs (step : String) (paths : List String) : StepError
  /-- An exception propagating out of a substep's unit of work. -/
  | substepError (substep : String) (msg : String) : StepError
  /-- Python `KeyError` on a failed `dict` lookup by name. -/
  | keyError (name : String) : StepError
  deriving DecidableEq

/-- The substep loop of `TestCase._run_step` (`testcase.py`, lines
293-314): the names in `step.substeps_to_run` are processed in order; each
is looked up in the `step.substeps` dict and its unit of work is invoked;
the first exception aborts the remaining substeps.  All three dispatch
branches of the source (external `substep.args` command,
`run_substeps_as_commands`, in-process `substep.run()`) invoke the
substep's unit of work and differ only in the launch mechanism, so they
are modelled uniformly through `Substep.work`.  Returns the names of the
substeps that were invoked (the substep call log) together with the
outcome. -/
def runSubsteps (step : Step) :
    List String → FS → List String × Except StepError FS
  | [], fs => ([], Except.ok fs)
  | n :: rest, fs =>
    match step.substeps.find? (fun s => s.name == n) with
    | none => ([], Except.error (StepError.keyError n))
    | some s =>
      match s.work fs with
      | Except.error msg => ([n], Except.error (StepError.substepError n msg))
      | Except.ok fs' =>
        let (tr, r) := runSubsteps step rest fs'
        (n :: tr, r)

/-- `TestCase._run_step` (`testcase.py`, lines 249-325): (1) every path in
`step.inputs` is checked for existence and the step fails with the
missing-inputs `OSError` before any substep runs if any is missing;
(2) the substeps in `step.substeps_to_run` are executed in order;
(3) after the substeps, every path in `step.outputs` is checked and the
step fails with the missing-outputs `OSError` if any is missing.  Returns
the substep call log together with the outcome. -/
def run_step (step : Step) (fs : FS) : List String × Except StepError FS :=
  let missing := step.inputs.filter (fun p => !(fs.contains p))
  if missing.isEmpty then
    match runSubsteps step step.substeps_to_run fs with
    | (tr, Except.error e) => (tr, Except.error e)
    | (tr, Except.ok fs') =>
      let missingOut := step.outputs.filter (fun p => !(fs'.contains p))
      if missingOut.isEmpty then (tr, Except.ok fs')
      else (tr, Except.error (StepError.missingOutputs step.name missingOut))
  else ([], Except.error (StepError.missingInputs step.name missing))

/-! ## TestCase (`src/compass/testcase.py`) -/

structure TestCase where
  name : String
  steps : List Step := []
  steps_to_run : List String := []

/-- The set of `constrain_resources` calls made by
`TestCase.prepare_steps_to_run` (`testcase.py`, lines 221-236), as
(step name, substep name) pairs in call order: the loop runs over
`self.steps_to_run`, skips cached steps, and then calls
`substep.constrain_resources` on every substep in `step.substeps` (not
just `step.substeps_to_run`).  The `step.runtime_setup()` hook and the
resource updates themselves are not part of the call log.  (A name in
`steps_to_run` that is not a step would raise `KeyError` in Python;
`run/serial.py` validates `steps_to_run` against the step names before
`run()` is ever called, so lookups succeed at this point.) -/
def prepareConstrainCalls (tc : TestCase) : List (String × String) :=
  tc.steps_to_run.flatMap fun step_name =>
    match tc.steps.find? (fun st => st.name == step_name) with
    | none => []
    | some st =>
      if st.cached then []
      else st.substeps.map (fun ss => (step_name, ss.name))

/-- The set of `constrain_resources` calls made by `run_substep`
(`run/serial.py`, lines 276-284) before running the one requested substep:
the loop runs over all of `step.substeps.values()` ("need to iterate over
all substeps because some substeps make use of resource constraints from
other substeps"). -/
def runSubstepConstrainCalls (step : Step) : List String :=
  step.substeps.map (fun ss => ss.name)

/-- The step loop of `TestCase.run` (`testcase.py`, lines 150-169): the
names in `steps_to_run` are processed in order; a cached step is skipped;
otherwise the step is executed by `_run_step` and the first failure aborts
the remaining steps (`raise` after printing `Failed`).  Returns the names
of the executed (non-cached, non-skipped) steps together with the
outcome. -/
def runCaseSteps (tc : TestCase) :
    List String → FS → List String × Except StepError FS
  | [], fs => ([], Except.ok fs)
  | n :: rest, fs =>
    match tc.steps.find? (fun st => st.name == n) with
    | none => ([], Except.error (StepError.keyError n))
    | some st =>
      if st.cached then runCaseSteps tc rest fs
      else
        match run_step st fs with
        | (_, Except.error e) => ([n], Except.error e)
        | (_, Except.ok fs') =>
          let (tr, r) := runCaseSteps tc rest fs'
          (n :: tr, r)

/-! ## Runner (`src/compass/run/serial.py`, `run_tests`)

The suite loop treats each test case's `run()` and `validate()` as
overridable black boxes; what the Runner observes of them is whether they
raise.  A `SuiteCase` records that observable behaviour together with the
outcome of `_update_steps_to_run` (which raises `ValueError` on an unknown
step name, outside the `try` blocks) and the case's `validation`
dictionary `(internal_pass, baseline_pass)`. -/

structure SuiteCase where
  name : String
  configOk : Bool := true
  runRaises : Bool := false
  validateRaises : Bool := false
  validation : Option (Option Bool × Option Bool) := none
  deriving DecidableEq

structure CaseOutcome where
  name : String
  runRaised : Bool
  validateInvoked : Bool
  validateRaised : Bool
  passed : Bool
  deriving DecidableEq

/-- The per-case body of the suite loop (`run/serial.py`, lines 126-199):
`test_case.run()` is wrapped in `try`/`except BaseException`, setting
`test_pass = False` on an exception; `test_case.validate()` is invoked only
when `test_pass` is still true, likewise wrapped; then a false
`internal_pass` or `baseline_pass` in `test_case.validation` sets
`test_pass = False`. -/
def caseOutcome (c : SuiteCase) : CaseOutcome :=
  let testPass := !c.runRaises
  let validateInvoked := testPass
  let testPass := testPass && !(validateInvoked && c.validateRaises)
  let testPass :=
    match c.validation with
    | none => testPass
    | some (internal_pass, baseline_pass) =>
      let t := if internal_pass == some false then false else testPass
      if baseline_pass == some false then false else t
  { name := c.name
    runRaised := c.runRaises
    validateInvoked := validateInvoked
    validateRaised := validateInvoked && c.validateRaises
    passed := testPass }

inductive ConfigError where
  /-- The `ValueError` raised by `_update_steps_to_run` for an unknown step
  name; it is raised outside the `try` blocks and aborts `run_tests`. -/
  | badStepsConfig (case : String) : ConfigError
  deriving DecidableEq

/-- The suite loop of `run_tests` (`run/serial.py`, lines 91-199): each
test case in the suite, in order, has `_update_steps_to_run` applied (an
exception there propagates and aborts the whole suite) and is then run and
validated per `caseOutcome`; no outcome of one case prevents the loop from
reaching the next case. -/
def runTests : List SuiteCase → Except ConfigError (List CaseOutcome)
  | [] => Except.ok []
  | c :: rest =>
    if c.configOk then
      match runTests rest with
      | Except.ok outcomes => Except.ok (caseOutcome c :: outcomes)
      | Except.error e => Except.error e
    else Except.error (ConfigError.badStepsConfig c.name)

/-- The number of failed cases counted by the suite loop; `run_tests` calls
`sys.exit(1)` at the end exactly when this is nonzero. -/
def countFailures (outcomes : List CaseOutcome) : Nat :=
  (outcomes.filter (fun o => !o.passed)).length

/-! ## Theorems -/

/-! ### Resource configuration after fitting (C9) -/

/-- A concrete substep requesting 8 tasks of 2 cores each. -/
def substepDemo : Substep :=
  { name := "model", cpus_per_task := 2, min_cpus_per_task := 2,
    ntasks := 8, min_tasks := 1, openmp_threads := 2 }

/-- The substep obtained by fitting `substepDemo` to 10 available cores:
`min 8 (10 // 2) = 5` tasks. -/
def fittedDemo : Substep := { substepDemo with ntasks := 5 }

/-- C9 counterexample: fitting `substepDemo` to 10 cores succeeds with 5
tasks, and calling `set_resources` on the fitted substep does not fail
with any `ConfigurationTooLate` error — `set_resources` has no failure
outcome at all — but instead changes `cpus_per_task` from 2 to 7. -/
theorem set_resources_after_fit_changes_request :
    (substepDemo.constrain_resources 10).map
        (fun s => (s.ntasks, s.cpus_per_task,
          (s.set_resources (some 7) none none none none none).cpus_per_task))
      = Except.ok (5, 2, 7) := by
  rfl

/-- C9 amended: calling `set_resources` after the substep's resources have
been fitted does not fail (there is no `ConfigurationTooLate` error in the
code) and unconditionally applies every provided override — all six of
`cpus_per_task`, `min_cpus_per_task`, `ntasks`, `min_tasks`,
`openmp_threads` and `mem` — to the resource request, leaving unset fields
unchanged. -/
theorem set_resources_after_fit (s s1 : Substep) (a : Int)
    (c mc n mn o : Option Int) (m : Option String)
    (_hfit : s.constrain_resources a = Except.ok s1) :
    (s1.set_resources c mc n mn o m).cpus_per_task = c.getD s1.cpus_per_task
      ∧ (s1.set_resources c mc n mn o m).min_cpus_per_task
        = mc.getD s1.min_cpus_per_task
      ∧ (s1.set_resources c mc n mn o m).ntasks = n.getD s1.ntasks
      ∧ (s1.set_resources c mc n mn o m).min_tasks = mn.getD s1.min_tasks
      ∧ (s1.set_resources c mc n mn o m).openmp_threads
        = o.getD s1.openmp_threads
      ∧ (s1.set_resources c mc n mn o m).mem = m.getD s1.mem := by
  unfold Substep.set_resources
  cases c <;> cases mc <;> cases n <;> cases mn <;> cases o <;> cases m <;>
    simp

/-- Witness for C9 amended at the fitted demo substep, with a mix of set
(`cpus_per_task`, `ntasks`, `openmp_threads`, `mem`) and unset
(`min_cpus_per_task`, `min_tasks`) arguments. -/
theorem set_resources_after_fit_witness :
    (fittedDemo.set_resources (some 7) none (some 3) none (some 4)
          (some "2G")).cpus_per_task
        = (some (7:Int)).getD fittedDemo.cpus_per_task
      ∧ (fittedDemo.set_resources (some 7) none (some 3) none (some 4)
          (some "2G")).min_cpus_per_task
        = (none : Option Int).getD fittedDemo.min_cpus_per_task
      ∧ (fittedDemo.set_resources (some 7) none (some 3) none (some 4)
          (some "2G")).ntasks = (some (3:Int)).getD fittedDemo.ntasks
      ∧ (fittedDemo.set_resources (some 7) none (some 3) none (some 4)
          (some "2G")).min_tasks
        = (none : Option Int).getD fittedDemo.min_tasks
      ∧ (fittedDemo.set_resources (some 7) none (some 3) none (some 4)
          (some "2G")).openmp_threads
        = (some (4:Int)).getD fittedDemo.openmp_threads
      ∧ (fittedDemo.set_resources (some 7) none (some 3) none (some 4)
          (some "2G")).mem = (some "2G").getD fittedDemo.mem :=
  set_resources_after_fit substepDemo fittedDemo 10 (some 7) none (some 3)
    none (some 4) (some "2G") (by rfl)

/-! ### ModelSubstep resource invariant (C10) -/

/-- C10: every `ModelSubstep` satisfies
`cpus_per_task = min_cpus_per_task = openmp_threads`: construction
establishes the invariant and `set_model_resources` preserves it for every
combination of set and unset arguments. -/
theorem modelSubstep_resource_invariant (name : String)
    (ntasks min_tasks openmp_threads : Int) (mem : String) (s : Substep)
    (nt mt ot : Option Int) (mm : Option String)
    (h : modelResourceInvariant s) :
    modelResourceInvariant
        (modelSubstepInit name ntasks min_tasks openmp_threads mem)
      ∧ modelResourceInvariant (s.set_model_resources nt mt ot mm) := by
  constructor
  · exact ⟨rfl, rfl⟩
  · unfold Substep.set_model_resources Substep.set_resources
    obtain ⟨h1, h2⟩ := h
    cases ot <;> cases nt <;> cases mt <;> cases mm <;>
      simp_all [modelResourceInvariant]

/-- Witness for C10 at a concrete model substep and a concrete
`set_model_resources` call that sets `ntasks` and `openmp_threads` but
leaves `min_tasks` and `mem` unset. -/
theorem modelSubstep_resource_invariant_witness :
    modelResourceInvariant (modelSubstepInit "model" 4 1 2 "1G")
      ∧ modelResourceInvariant
        ((modelSubstepInit "model" 4 1 2 "1G").set_model_resources
          (some 8) none (some 3) none) :=
  modelSubstep_resource_invariant "model" 4 1 2 "1G"
    (modelSubstepInit "model" 4 1 2 "1G") (some 8) none (some 3) none
    ⟨rfl, rfl⟩

/-! ### PIO stride (C6, C7) -/

/-- C6: whenever the derived stride `cores // ceil(cores / cores_per_node)`
exceeds the per-node capacity `cores_per_node`, `update_namelist_pio`
fails with the hard `ValueError` naming cores and cores-per-node, rather
than silently clamping the stride. -/
theorem pio_stride_hard_error (cores cores_per_node : Int)
    (h0 : cores_per_node ≠ 0) (h1 : ceil_div cores cores_per_node ≠ 0)
    (h2 : cores_per_node < cores.fdiv (ceil_div cores cores_per_node)) :
    update_namelist_pio cores cores_per_node =
      Except.error (PioError.notEnoughNodes cores cores_per_node) := by
  simp [update_namelist_pio, h0, h1, h2]

/-- Witness for C6: with `cores = -10` and `cores_per_node = 4` the derived
stride is `(-10) // ceil(-10/4) = (-10) // (-2) = 5 > 4` and the call
fails hard. -/
theorem pio_stride_hard_error_witness :
    ((4:Int) ≠ 0 ∧ ceil_div (-10) 4 ≠ 0
        ∧ (4:Int) < (-10 : Int).fdiv (ceil_div (-10) 4))
      ∧ update_namelist_pio (-10) 4 =
        Except.error (PioError.notEnoughNodes (-10) 4) :=
  ⟨⟨by decide, by decide, by decide⟩,
    pio_stride_hard_error (-10) 4 (by decide) (by decide) (by decide)⟩

theorem ceil_div_pos {c p : Int} (hc : 1 ≤ c) (hp : 1 ≤ p) :
    1 ≤ ceil_div c p := by
  unfold ceil_div
  rw [Int.fdiv_eq_ediv _ (by omega : (0:Int) ≤ p)]
  have h := Int.ediv_neg' (a := -c) (b := p) (by omega) (by omega)
  omega

theorem le_mul_ceil_div {c p : Int} (hp : 1 ≤ p) :
    c ≤ p * ceil_div c p := by
  unfold ceil_div
  rw [Int.fdiv_eq_ediv _ (by omega : (0:Int) ≤ p)]
  have h := Int.ediv_mul_le (-c) (b := p) (by omega)
  have h2 : p * -(-c / p) = -(-c / p * p) := by ring
  rw [h2]
  linarith

theorem pio_stride_le_cores_per_node {c p : Int} (hc : 1 ≤ c)
    (hp : 1 ≤ p) : c.fdiv (ceil_div c p) ≤ p := by
  have hn : 1 ≤ ceil_div c p := ceil_div_pos hc hp
  have hcle : c ≤ p * ceil_div c p := le_mul_ceil_div hp
  rw [Int.fdiv_eq_ediv _ (by omega : (0:Int) ≤ ceil_div c p)]
  exact Int.ediv_le_of_le_mul (by omega) (by linarith [mul_comm p (ceil_div c p)])

/-- C7: for all `cores ≥ 1` and `cores_per_node ≥ 1` the derived stride is
at most `cores_per_node`, so `update_namelist_pio` always takes its
success branch — the "Not enough nodes for the number of cores" error is
unreachable under these preconditions. -/
theorem pio_error_branch_unreachable (cores cores_per_node : Int)
    (hc : 1 ≤ cores) (hp : 1 ≤ cores_per_node) :
    cores.fdiv (ceil_div cores cores_per_node) ≤ cores_per_node
      ∧ update_namelist_pio cores cores_per_node =
        Except.ok (ceil_div cores cores_per_node,
          cores.fdiv (ceil_div cores cores_per_node)) := by
  have hs := pio_stride_le_cores_per_node hc hp
  have hn := ceil_div_pos hc hp
  refine ⟨hs, ?_⟩
  unfold update_namelist_pio
  rw [if_neg (show ¬ cores_per_node = 0 by omega),
    if_neg (show ¬ ceil_div cores cores_per_node = 0 by omega),
    if_neg (show ¬ cores_per_node <
      cores.fdiv (ceil_div cores cores_per_node) by omega)]

/-- Witness for C7 at `cores = 10`, `cores_per_node = 4`: the derived
settings are 3 I/O tasks with stride 3 and the call succeeds. -/
theorem pio_error_branch_unreachable_witness :
    (10:Int).fdiv (ceil_div 10 4) ≤ 4
      ∧ update_namelist_pio 10 4 =
        Except.ok (ceil_div 10 4, (10:Int).fdiv (ceil_div 10 4)) :=
  pio_error_branch_unreachable 10 4 (by decide) (by decide)

/-! ### Input and output gates (C3, C4) -/

/-- C3: a step one of whose declared `inputs` does not exist fails
immediately with the missing-inputs error naming the step and the missing
paths, and no substep is invoked (the substep call log is empty). -/
theorem missing_inputs_gate (step : Step) (fs : FS)
    (h : ∃ p ∈ step.inputs, fs.contains p = false) :
    run_step step fs =
      ([], Except.error (StepError.missingInputs step.name
        (step.inputs.filter (fun p => !(fs.contains p))))) := by
  obtain ⟨p, hp, hc⟩ := h
  have hmem : p ∈ step.inputs.filter (fun p => !(fs.contains p)) :=
    List.mem_filter.mpr ⟨hp, by simpa using hc⟩
  have hne : ¬ (step.inputs.filter (fun p => !(fs.contains p))).isEmpty
      = true := by
    simp only [List.isEmpty_iff]
    exact List.ne_nil_of_mem hmem
  unfold run_step
  rw [if_neg hne]

/-- A step declaring an input file, with one substep, for exercising the
input gate. -/
def stepInDemo : Step :=
  { name := "forward", inputs := ["init.nc"],
    substeps := [{ name := "A" }], substeps_to_run := ["A"] }

/-- Witness for C3: on an empty filesystem, `stepInDemo` fails with the
missing-inputs error and its substep call log is empty. -/
theorem missing_inputs_gate_witness :
    run_step stepInDemo [] =
      ([], Except.error (StepError.missingInputs stepInDemo.name
        (stepInDemo.inputs.filter (fun p => !(([]:FS).contains p))))) :=
  missing_inputs_gate stepInDemo [] ⟨"init.nc", by simp [stepInDemo], rfl⟩

/-- C4: a step whose substeps all complete without error but one of whose
declared `outputs` does not exist afterwards fails with the
missing-outputs error naming the step and the missing paths, even though
every substep reported success. -/
theorem missing_outputs_gate (step : Step) (fs fs' : FS) (tr : List String)
    (hin : step.inputs.filter (fun p => !(fs.contains p)) = [])
    (hrun : runSubsteps step step.substeps_to_run fs
      = (tr, Except.ok fs'))
    (hout : ∃ p ∈ step.outputs, fs'.contains p = false) :
    run_step step fs =
      (tr, Except.error (StepError.missingOutputs step.name
        (step.outputs.filter (fun p => !(fs'.contains p))))) := by
  obtain ⟨p, hp, hc⟩ := hout
  have hmem : p ∈ step.outputs.filter (fun p => !(fs'.contains p)) :=
    List.mem_filter.mpr ⟨hp, by simpa using hc⟩
  have hne : ¬ (step.outputs.filter (fun p => !(fs'.contains p))).isEmpty
      = true := by
    simp only [List.isEmpty_iff]
    exact List.ne_nil_of_mem hmem
  unfold run_step
  rw [hin, hrun]
  simp only [List.isEmpty_nil, if_true]
  rw [if_neg hne]

/-- A substep that succeeds and creates `partial.nc`. -/
def substepOutDemo : Substep :=
  { name := "A", work := fun fs => Except.ok ("partial.nc" :: fs) }

/-- A step whose single substep succeeds and creates `partial.nc`, while
the step declares `out.nc` as its output. -/
def stepOutDemo : Step :=
  { name := "forward", outputs := ["out.nc"],
    substeps := [substepOutDemo], substeps_to_run := ["A"] }

/-- Witness for C4: `stepOutDemo`'s substep succeeds but the declared
output is missing, so the step fails with the missing-outputs error. -/
theorem missing_outputs_gate_witness :
    run_step stepOutDemo [] =
      (["A"], Except.error (StepError.missingOutputs stepOutDemo.name
        (stepOutDemo.outputs.filter
          (fun p => !((["partial.nc"]:FS).contains p))))) :=
  missing_outputs_gate stepOutDemo [] ["partial.nc"] ["A"] rfl (by rfl)
    ⟨"out.nc", by simp [stepOutDemo], rfl⟩

/-! ### Deterministic execution order (C5) -/

/-- When the substep loop of a step completes successfully, the substep
call log is exactly `names`, the list it was given. -/
theorem runSubsteps_ok_trace (step : Step) (names : List String)
    (fs fs' : FS) (tr : List String)
    (h : runSubsteps step names fs = (tr, Except.ok fs')) : tr = names := by
  induction names generalizing fs fs' tr with
  | nil =>
    unfold runSubsteps at h
    exact (Prod.mk.injEq _ _ _ _ ▸ h).1.symm ▸ rfl
  | cons n rest ih =>
    unfold runSubsteps at h
    cases hfind : step.substeps.find? (fun s => s.name == n) with
    | none => rw [hfind] at h; simp at h
    | some s =>
      rw [hfind] at h
      dsimp only at h
      cases hw : s.work fs with
      | error msg => rw [hw] at h; simp at h
      | ok fs2 =>
        rw [hw] at h
        dsimp only at h
        cases hrec : runSubsteps step rest fs2 with
        | mk tr2 r2 =>
          rw [hrec] at h
          obtain ⟨h1, h2⟩ := Prod.mk.injEq _ _ _ _ ▸ h
          dsimp only at h1 h2
          subst h2
          rw [← h1, ih fs2 fs' tr2 hrec]

/-- When the step loop of a test case completes successfully and no step
is cached, the executed-step log is exactly `names`, the list it was
given. -/
theorem runCaseSteps_ok_trace (tc : TestCase) (names : List String)
    (fs fs' : FS) (tr : List String)
    (hnc : ∀ st ∈ tc.steps, st.cached = false)
    (h : runCaseSteps tc names fs = (tr, Except.ok fs')) : tr = names := by
  induction names generalizing fs fs' tr with
  | nil =>
    unfold runCaseSteps at h
    exact (Prod.mk.injEq _ _ _ _ ▸ h).1.symm ▸ rfl
  | cons n rest ih =>
    unfold runCaseSteps at h
    cases hfind : tc.steps.find? (fun st => st.name == n) with
    | none => rw [hfind] at h; simp at h
    | some st =>
      rw [hfind] at h
      dsimp only at h
      rw [hnc st (List.mem_of_find?_eq_some hfind)] at h
      simp only [Bool.false_eq_true, if_false] at h
      cases hrs : run_step st fs with
      | mk tr0 r0 =>
        rw [hrs] at h
        cases r0 with
        | error e => simp at h
        | ok fs2 =>
          dsimp only at h
          cases hrec : runCaseSteps tc rest fs2 with
          | mk tr2 r2 =>
            rw [hrec] at h
            obtain ⟨h1, h2⟩ := Prod.mk.injEq _ _ _ _ ▸ h
            dsimp only at h1 h2
            subst h2
            rw [← h1, ih fs2 fs' tr2 hrec]

/-- C5: execution order is deterministic.  Within a step, when all
substeps complete the substep call log equals `substeps_to_run` (which
`add_substep` extends in declaration order, so declaration order equals
execution order); within a test case with no cached steps, when all steps
complete the executed-step log equals `steps_to_run`. -/
theorem execution_order (step : Step) (s : Substep) (fs fs' : FS)
    (tr : List String) (tc : TestCase) (cfs cfs' : FS) (ctr : List String)
    (hstep : runSubsteps step step.substeps_to_run fs
      = (tr, Except.ok fs'))
    (hnc : ∀ st ∈ tc.steps, st.cached = false)
    (hcase : runCaseSteps tc tc.steps_to_run cfs
      = (ctr, Except.ok cfs')) :
    tr = step.substeps_to_run
      ∧ (step.add_substep s).substeps_to_run
        = step.substeps_to_run ++ [s.name]
      ∧ ctr = tc.steps_to_run :=
  ⟨runSubsteps_ok_trace step step.substeps_to_run fs fs' tr hstep, rfl,
    runCaseSteps_ok_trace tc tc.steps_to_run cfs cfs' ctr hnc hcase⟩

/-- A step holding substeps `A`, `B`, `C`, each a successful no-op,
declared in that order via `add_substep`. -/
def stepABC : Step :=
  (({ name := "step" } : Step).add_substep { name := "A" }
    |>.add_substep { name := "B" }).add_substep { name := "C" }

/-- A test case holding `stepABC` (not cached) as its only step. -/
def caseABC : TestCase :=
  { name := "tc", steps := [stepABC], steps_to_run := ["step"] }

/-- Witness for C5: running `stepABC` logs exactly `A`, `B`, `C`, and
running `caseABC` executes exactly `["step"]`. -/
theorem execution_order_witness :
    ["A", "B", "C"] = stepABC.substeps_to_run
      ∧ (stepABC.add_substep { name := "D" }).substeps_to_run
        = stepABC.substeps_to_run ++ ["D"]
      ∧ ["step"] = caseABC.steps_to_run :=
  execution_order stepABC { name := "D" } [] [] ["A", "B", "C"] caseABC
    [] [] ["step"] (by rfl)
    (by intro st hst
        simp only [caseABC] at hst
        simp only [List.mem_singleton] at hst
        rw [hst]; rfl)
    (by rfl)

/-! ### Which substeps get fitted during prepare (C2) -/

/-- A step listed in `steps_to_run`, with two substeps of which only the
first is in `substeps_to_run`. -/
def prepStepA : Step :=
  { name := "a", substeps := [{ name := "sa1" }, { name := "sa2" }],
    substeps_to_run := ["sa1"] }

/-- A step not listed in `steps_to_run`, with one substep. -/
def prepStepB : Step :=
  { name := "b", substeps := [{ name := "sb" }],
    substeps_to_run := ["sb"] }

/-- A test case whose full step set is `{a, b}` but whose `steps_to_run`
is only `["a"]`. -/
def prepCaseDemo : TestCase :=
  { name := "tc", steps := [prepStepA, prepStepB],
    steps_to_run := ["a"] }

/-- C2 counterexample: step `b` belongs to `prepCaseDemo`'s full step set
and has substep `sb`, yet `prepare_steps_to_run` never calls
`constrain_resources` on it, because the loop runs over `steps_to_run`
(here `["a"]`), not over the full step set. -/
theorem prepare_skips_steps_not_to_run :
    (∃ st ∈ prepCaseDemo.steps, st.name = "b"
        ∧ ∃ ss ∈ st.substeps, ss.name = "sb")
      ∧ ("b", "sb") ∉ prepareConstrainCalls prepCaseDemo := by
  constructor
  · exact ⟨prepStepB,
      List.mem_cons_of_mem _ (List.mem_cons_self _ _), rfl,
      ⟨{ name := "sb" }, List.mem_cons_self _ _, rfl⟩⟩
  · intro hmem
    have : prepareConstrainCalls prepCaseDemo
        = [("a", "sa1"), ("a", "sa2")] := by rfl
    rw [this] at hmem
    simp at hmem

/-- C2 amended: `prepare_steps_to_run` calls `constrain_resources` on
every substep of every non-cached step listed in `steps_to_run` — the full
substep set of each such step, not just its `substeps_to_run` — while
steps outside `steps_to_run` are not fitted; and single-substep mode
(`run_substep`) likewise constrains every substep of its step. -/
theorem prepare_constrains_all_substeps_of_listed_steps (tc : TestCase)
    (step_name : String) (st : Step) (ss : Substep)
    (h1 : step_name ∈ tc.steps_to_run)
    (h2 : tc.steps.find? (fun x => x.name == step_name) = some st)
    (h3 : st.cached = false) (h4 : ss ∈ st.substeps) :
    (step_name, ss.name) ∈ prepareConstrainCalls tc
      ∧ ss.name ∈ runSubstepConstrainCalls st := by
  constructor
  · unfold prepareConstrainCalls
    refine List.mem_flatMap.mpr ⟨step_name, h1, ?_⟩
    rw [h2]
    dsimp only
    rw [h3]
    simp only [Bool.false_eq_true, if_false]
    exact List.mem_map.mpr ⟨ss, h4, rfl⟩
  · exact List.mem_map.mpr ⟨ss, h4, rfl⟩

/-- Witness for C2 amended: substep `sa2` of step `a` is fitted even
though it is not in `a`'s `substeps_to_run`. -/
theorem prepare_constrains_all_substeps_witness :
    ("a", "sa2") ∈ prepareConstrainCalls prepCaseDemo
      ∧ "sa2" ∈ runSubstepConstrainCalls prepStepA :=
  prepare_constrains_all_substeps_of_listed_steps prepCaseDemo "a"
    prepStepA { name := "sa2" } (List.mem_cons_self _ _) (by rfl) rfl
    (List.mem_cons_of_mem _ (List.mem_cons_self _ _))

/-! ### Failure containment and validate-after-run (C1, C8) -/

/-- When every case's `steps_to_run` configuration is valid, the suite
loop reaches and processes every test case. -/
theorem runTests_ok_of_configOk (cases : List SuiteCase)
    (hok : ∀ x ∈ cases, x.configOk = true) :
    runTests cases = Except.ok (cases.map caseOutcome) := by
  induction cases with
  | nil => rfl
  | cons a rest ih =>
    unfold runTests
    rw [hok a (List.mem_cons_self a rest),
      ih (fun x hx => hok x (List.mem_cons_of_mem a hx))]
    rfl

/-- C1: in a suite run where every case's step configuration is valid, an
exception raised inside one case's `run()` or `validate()` is caught at
the test-case boundary: the suite loop still produces an outcome for every
test case in order (no case's failure prevents any later case from
executing) and the failing case is recorded as failed. -/
theorem runner_contains_case_failures (cases : List SuiteCase)
    (c : SuiteCase) (hok : ∀ x ∈ cases, x.configOk = true)
    (_hc : c ∈ cases)
    (hfail : c.runRaises = true ∨ c.validateRaises = true) :
    runTests cases = Except.ok (cases.map caseOutcome)
      ∧ (cases.map caseOutcome).map (fun o => o.name)
        = cases.map (fun x => x.name)
      ∧ (caseOutcome c).passed = false := by
  refine ⟨runTests_ok_of_configOk cases hok, ?_, ?_⟩
  · rw [List.map_map]; rfl
  · cases hr : c.runRaises with
    | true =>
      unfold caseOutcome
      rw [hr]
      rcases c.validation with _ | ⟨ip, bp⟩ <;> simp
    | false =>
      rcases hfail with h | h
      · rw [hr] at h; exact absurd h (by simp)
      · unfold caseOutcome
        rw [hr, h]
        rcases c.validation with _ | ⟨ip, bp⟩ <;> simp

/-- The demo suite: three cases, the second of which raises in `run()`. -/
def suiteDemo : List SuiteCase :=
  [{ name := "case1" }, { name := "case2", runRaises := true },
    { name := "case3" }]

/-- Witness for C1: with case 2 of three raising in `run()`, the loop
still produces outcomes for all three cases in order and records case 2
as failed (it is the only failure). -/
theorem runner_contains_case_failures_witness :
    (runTests suiteDemo = Except.ok (suiteDemo.map caseOutcome)
        ∧ (suiteDemo.map caseOutcome).map (fun o => o.name)
          = suiteDemo.map (fun x => x.name)
        ∧ (caseOutcome { name := "case2", runRaises := true }).passed
          = false)
      ∧ countFailures (suiteDemo.map caseOutcome) = 1 :=
  ⟨runner_contains_case_failures suiteDemo
      { name := "case2", runRaises := true } (by decide) (by decide)
      (Or.inl rfl),
    by decide⟩

/-- C8: in the per-case body of the suite loop, `validate()` is invoked
only if `run()` succeeded: whenever `run()` raises, the Runner never calls
`validate()` for that case. -/
theorem validate_only_if_run_succeeded (c : SuiteCase)
    (h : c.runRaises = true) :
    (caseOutcome c).validateInvoked = false := by
  simp [caseOutcome, h]

/-- Witness for C8 at a concrete case whose `run()` raises. -/
theorem validate_only_if_run_succeeded_witness :
    (caseOutcome { name := "case2", runRaises := true }).validateInvoked
      = false :=
  validate_only_if_run_succeeded { name := "case2", runRaises := true } rfl

end Compass
